import Mathlib

/-!
Shallow embedding of the playback engine of keshon/melodix-discord-player
(package player, file src/unnamed/part_001) and proofs about its public
operations: Play, Skip, Enqueue, Dequeue, ClearQueue, Stop, Pause, Unpause.

Modelling conventions:
- `time.Duration` values are `Int` nanosecond counts; arithmetic on them in Go
  is wrapping 64-bit signed arithmetic, modelled by `wrap64`.
- External collaborators (the dca encode/stream library under music/pkg/dca,
  the discordgo voice connection, the history store, and the URL-parameter
  parser in music/utils, none of which are under src/) are modelled as oracle
  data: a `PlayEnv` value per `Play` invocation supplies the outcome of each
  external call, and per-connection flags on `discordgo.VoiceConnection`
  supply the outcomes of its `Speaking`/`Disconnect` calls.
- `slog.Fatal` (gookit/slog) exits the process; a Go nil-pointer dereference
  panics. Both are modelled by the `Outcome.fatal` result. `Outcome.blocked`
  models an execution that waits forever (the ready-poll loop with no voice
  connection) or that needs more oracle fuel than supplied.
- Calls into the history store are recorded as events (`Ev`) in the result,
  as are skip-channel sends/receives and logged errors.
-/

namespace Melodix

/-- Source kind of media: SongSource with constants SourceYouTube, SourceStream. -/
inductive SongSource where
  | SourceYouTube
  | SourceStream
deriving DecidableEq, Repr

/-- Thumbnail image reference attached to a song. -/
structure Thumbnail where
  URL : String
  Width : Nat
  Height : Nat
deriving DecidableEq, Repr

/-- Song represents a media item (struct Song). Duration is nanoseconds. -/
structure Song where
  Title : String
  UserURL : String
  DownloadURL : String
  Thumb : Thumbnail
  Duration : Int
  ID : String
  Source : SongSource
deriving DecidableEq, Repr

/-- Playback status of the player (type PlaybackStatus). -/
inductive PlaybackStatus where
  | StatusResting
  | StatusPlaying
  | StatusPaused
  | StatusError
deriving DecidableEq, Repr

namespace discordgo

/-- The discordgo voice connection as the player observes it: its guild id,
its Ready flag, and oracle flags giving the outcome of the external calls
`Speaking(true)`, `Speaking(false)` and `Disconnect()` made on it. -/
structure VoiceConnection where
  GuildID : String
  Ready : Bool
  SpeakOnErr : Bool
  SpeakOffErr : Bool
  DisconnectErr : Bool
deriving DecidableEq, Repr

end discordgo

namespace dca

/-- The dca encode session as the player observes it: the duration reported by
`Stats().Duration` when the stream completes (nanoseconds) and the
`Options().StartTime` it was opened with (seconds). -/
structure EncodeSession where
  StatsDurationNs : Int
  StartTime : Int
deriving DecidableEq, Repr

/-- The dca streaming session as the player observes it: the position reported
by `PlaybackPosition()` when the stream completes (nanoseconds) and its
paused flag (`SetPaused` / `Paused`). -/
structure StreamingSession where
  PlaybackPositionNs : Int
  PausedFlag : Bool
deriving DecidableEq, Repr

end dca

/-- A Go error value where only "is it nil / is it io.EOF" matters. -/
inductive GoErr where
  | eof
  | other
deriving DecidableEq, Repr

/-- Player manages audio playback and the song queue (struct Player).
SkipInterrupt models the occupancy of the capacity-1 channel
`SkipInterrupt chan bool`. -/
structure Player where
  VoiceConnection : Option discordgo.VoiceConnection
  StreamingSession : Option dca.StreamingSession
  EncodingSession : Option dca.EncodeSession
  SongQueue : List Song
  CurrentSong : Option Song
  CurrentStatus : PlaybackStatus
  SkipInterrupt : Nat
deriving DecidableEq, Repr

/-- Observable side effects of an operation: history-store calls, logged
errors, and skip-channel traffic. -/
inductive Ev where
  | playCount (guildID songID : String)
  | trackStart (guildID songID : String)
  | errLog
  | sendSkip
  | consumeSkip
deriving DecidableEq, Repr

/-- Result of running an operation: a final in-memory state, a process
termination (slog.Fatal or a nil-pointer panic), or an execution that blocks
forever / exhausts the supplied oracle fuel. -/
inductive Outcome where
  | ok (p : Player)
  | fatal
  | blocked
deriving DecidableEq, Repr

/-- Nanoseconds in time.Second. -/
def timeSecondNs : Int := 1000000000

/-- Wrapping 64-bit signed integer arithmetic, as Go int64 / time.Duration. -/
def wrap64 (x : Int) : Int := (x + 2 ^ 63) % 2 ^ 64 - 2 ^ 63

/-- NewPlayer creates a new Player instance. -/
def NewPlayer : Player :=
  { VoiceConnection := none
    SkipInterrupt := 0
    StreamingSession := none
    EncodingSession := none
    SongQueue := []
    CurrentSong := none
    CurrentStatus := .StatusResting }

/-- Enqueue adds a song to the queue (append at the tail). -/
def Enqueue (p : Player) (song : Song) : Player :=
  { p with SongQueue := p.SongQueue ++ [song] }

/-- Dequeue removes and returns the first song from the queue; nil on empty. -/
def Dequeue (p : Player) : Option Song × Player :=
  match p.SongQueue with
  | [] => (none, p)
  | firstSong :: rest => (some firstSong, { p with SongQueue := rest })

/-- ClearQueue clears the song queue (early return when already empty). -/
def ClearQueue (p : Player) : Player :=
  if p.SongQueue.isEmpty then p
  else { p with SongQueue := [] }

/-- Stop stops playback and disconnects from the voice channel. Order as in
the source: ClearQueue; if connected, Speaking(false) with the error only
logged, then Disconnect with an error passed to slog.Fatal (process exit),
then the connection is set to nil; the streaming session is dropped; the
encode session is stopped and cleaned up but the field is left as is;
CurrentSong is cleared and the status set to StatusResting. -/
def Stop (p : Player) : Outcome × List Ev :=
  let p0 := ClearQueue p
  match p0.VoiceConnection with
  | some vc =>
    let evs := if vc.SpeakOffErr then [Ev.errLog] else []
    if vc.DisconnectErr then (.fatal, evs)
    else
      (.ok { p0 with VoiceConnection := none, StreamingSession := none,
                     CurrentSong := none, CurrentStatus := .StatusResting }, evs)
  | none =>
    (.ok { p0 with StreamingSession := none,
                   CurrentSong := none, CurrentStatus := .StatusResting }, [])

/-- Pause pauses audio playback: no-op without a connection or a streaming
session; when StatusPlaying, marks the stream paused and the status Paused. -/
def Pause (p : Player) : Player :=
  match p.VoiceConnection, p.StreamingSession with
  | some _, some ss =>
    if p.CurrentStatus = .StatusPlaying then
      { p with StreamingSession := some { ss with PausedFlag := true },
               CurrentStatus := .StatusPaused }
    else p
  | _, _ => p

/-- metrics calculates playback metrics for a song. `durParam` models the
result of utils.ParseQueryParamsFromURL on song.DownloadURL followed by
time.ParseDuration of params["duration"] (music/utils is not under src/):
some d is a successful parse yielding d nanoseconds, none a parse error,
which in Go leaves the zero duration. Returns (songDuration, songPosition).
Note the source multiplies the already-parsed duration by time.Second once
more, with wrapping int64 arithmetic. -/
def metrics (encoding : dca.EncodeSession) (streaming : dca.StreamingSession)
    (durParam : Option Int) : Int × Int :=
  let encodingDuration := encoding.StatsDurationNs
  let encodingStartTime := wrap64 (encoding.StartTime * timeSecondNs)
  let streamingPosition := streaming.PlaybackPositionNs
  let delay := wrap64 (encodingDuration - streamingPosition)
  let duration := durParam.getD 0
  let songDuration := wrap64 (duration * timeSecondNs)
  let songPosition := wrap64 (wrap64 (encodingStartTime + streamingPosition) + delay)
  (songDuration, songPosition)

/-- Oracle data consumed by one invocation of Play: the result of each call
into an external collaborator made during that invocation.
`encode`: result of dca.EncodeFile — none is an error (the session assigned
to the player is then nil), some d a session whose Stats().Duration at
completion time is d nanoseconds. `playbackPos`: PlaybackPosition() of the
created stream at completion, nanoseconds. `selSkip`: when a skip signal is
pending at the select, whether the select picks the skip channel over done.
`statsErr`: result of history.AddPlaybackDurationStats/AddPlaybackCountStats
at stream end. `durParam`: see metrics. -/
structure PlayEnv where
  encode : Option Int
  playbackPos : Int
  selSkip : Bool
  statsErr : Option GoErr
  durParam : Option Int
deriving DecidableEq, Repr

/-- How the done-branch of Play's select (auto-restart logic) exits:
resume at a computed offset (Play(int(songPosition.Seconds()), CurrentSong)
after Cleanup and Speaking(false)); restart a live stream from zero
(Play(0, CurrentSong) after Cleanup and Speaking(false)); transition to
Resting on an unexpected error; call Stop() because the queue is empty; or
advance to the next queued song via Play(0, nil). -/
inductive DoneDecision where
  | resume (offSec : Int)
  | restartLive
  | errorRest
  | stopQueueEmpty
  | advance
deriving DecidableEq, Repr

/-- The decision taken in the done-branch of Play's select, lines guarded by
`p.VoiceConnection != nil && p.StreamingSession != nil && p.CurrentSong != nil`.
Within Play the EncodingSession is always non-nil at this point (it is
assigned before the select and never cleared), so it is matched together with
the source's three-way nil guard; when the guard fails the stale `err`
variable is nil, so the error branch cannot be taken there. -/
def doneDecision (p : Player) (statsErr : Option GoErr) (durParam : Option Int) :
    DoneDecision :=
  match p.VoiceConnection, p.StreamingSession, p.CurrentSong, p.EncodingSession with
  | some _, some ss, some song, some enc =>
    let after :=
      if statsErr ≠ none ∧ statsErr ≠ some .eof then DoneDecision.errorRest
      else if p.SongQueue.isEmpty then .stopQueueEmpty
      else .advance
    if song.Source ≠ .SourceStream then
      let m := metrics enc ss durParam
      if p.CurrentStatus = .StatusPlaying ∧ enc.StatsDurationNs > 0 ∧ m.2 > 0 ∧ m.2 < m.1
      then .resume (Int.tdiv m.2 timeSecondNs)
      else after
    else
      if p.CurrentStatus = .StatusPlaying then .restartLive else after
  | _, _, _, _ =>
    if p.SongQueue.isEmpty then .stopQueueEmpty else .advance

/-- Play starts playing the current or specified song, runs the playback loop
to completion, and performs the auto-restart / advance logic; recursive calls
(resume, live restart, next song) consume the tail of the oracle list. When
the song argument is nil the head of the queue is moved into CurrentSong,
and an empty queue sets StatusResting and returns. A non-nil song argument
is only a flag: the source keeps using p.CurrentSong, and dereferences it
unconditionally, a panic when it is nil. The ready-wait poll loop never
terminates in a sequential run when no ready connection is attached. -/
def Play (envs : List PlayEnv) (p : Player) (startAt : Int) (song : Option Song) :
    Outcome × List Ev :=
  let p1 := match song with
    | none =>
      let dq := Dequeue p
      { dq.2 with CurrentSong := dq.1 }
    | some _ => p
  if song = none ∧ p1.CurrentSong = none then
    (.ok { p1 with CurrentStatus := .StatusResting }, [])
  else
  match p1.CurrentSong with
  | none => (.fatal, [])
  | some cur =>
  match envs with
  | [] => (.blocked, [])
  | e :: rest =>
    match e.encode with
    | none => (.ok { p1 with EncodingSession := none }, [Ev.errLog])
    | some d =>
      let enc : dca.EncodeSession := { StatsDurationNs := d, StartTime := startAt }
      let p2 := { p1 with EncodingSession := some enc }
      match p2.VoiceConnection with
      | none => (.blocked, [])
      | some vc =>
        if ¬ vc.Ready then (.blocked, [])
        else if vc.SpeakOnErr then (.ok p2, [Ev.errLog])
        else
          let ss : dca.StreamingSession :=
            { PlaybackPositionNs := e.playbackPos, PausedFlag := false }
          let p3 := { p2 with StreamingSession := some ss,
                              CurrentStatus := .StatusPlaying }
          let evStart := Ev.trackStart vc.GuildID cur.ID
          if e.selSkip ∧ p3.SkipInterrupt ≥ 1 then
            (.ok { p3 with SkipInterrupt := p3.SkipInterrupt - 1 },
             [evStart, Ev.consumeSkip])
          else
            match doneDecision p3 e.statsErr e.durParam with
            | .resume offSec =>
              let r := Play rest p3 offSec p3.CurrentSong
              (r.1, evStart :: r.2)
            | .restartLive =>
              let r := Play rest p3 0 p3.CurrentSong
              (r.1, evStart :: r.2)
            | .errorRest =>
              (.ok { p3 with CurrentStatus := .StatusResting },
               [evStart, Ev.playCount vc.GuildID cur.ID, Ev.errLog])
            | .stopQueueEmpty =>
              let r := Stop p3
              (r.1, evStart :: Ev.playCount vc.GuildID cur.ID :: r.2)
            | .advance =>
              let r := Play rest p3 0 none
              (r.1, evStart :: Ev.playCount vc.GuildID cur.ID :: r.2)

/-- Skip skips to the next song in the queue. In the Playing/Paused case the
nil guard on the connection and current song comes first, then the status is
set to Resting, and only when the skip channel is empty are the play-count
stat, the channel send and the nested Play(0, nil) performed. In the Resting
case with a current song the stat call dereferences p.VoiceConnection.GuildID
before any nil check (a panic when disconnected), and the status is set to
StatusPlaying after the nested Play returns; the same final assignment
happens in the Resting case without a current song. StatusError matches no
case of the switch. -/
def Skip (envs : List PlayEnv) (p : Player) : Outcome × List Ev :=
  match p.CurrentStatus with
  | .StatusPlaying | .StatusPaused =>
    match p.VoiceConnection, p.CurrentSong with
    | some vc, some cur =>
      let p1 := { p with CurrentStatus := .StatusResting }
      if p1.SkipInterrupt = 0 then
        let p2 := { p1 with SkipInterrupt := 1 }
        let r := Play envs p2 0 none
        (r.1, Ev.playCount vc.GuildID cur.ID :: Ev.sendSkip :: r.2)
      else (.ok p1, [])
    | _, _ => (.ok p, [])
  | .StatusResting =>
    match p.CurrentSong with
    | some cur =>
      if p.SkipInterrupt = 0 then
        match p.VoiceConnection with
        | none => (.fatal, [])
        | some vc =>
          let p2 := { p with SkipInterrupt := 1 }
          match Play envs p2 0 none with
          | (.ok q, evs) =>
            (.ok { q with CurrentStatus := .StatusPlaying },
             Ev.playCount vc.GuildID cur.ID :: Ev.sendSkip :: evs)
          | (o, evs) => (o, Ev.playCount vc.GuildID cur.ID :: Ev.sendSkip :: evs)
      else (.ok p, [])
    | none =>
      if p.SkipInterrupt = 0 then
        let p2 := { p with SkipInterrupt := 1 }
        match Play envs p2 0 none with
        | (.ok q, evs) =>
          (.ok { q with CurrentStatus := .StatusPlaying }, Ev.sendSkip :: evs)
        | (o, evs) => (o, Ev.sendSkip :: evs)
      else (.ok p, [])
  | .StatusError => (.ok p, [])

/-- Unpause resumes audio playback: returns at once without a connection;
unpauses the stream when Paused; then, when the queue is non-empty and the
status is Resting, runs Play(0, nil) and afterwards sets StatusPlaying. -/
def Unpause (envs : List PlayEnv) (p : Player) : Outcome × List Ev :=
  match p.VoiceConnection with
  | none => (.ok p, [])
  | some _ =>
    let p1 :=
      match p.StreamingSession with
      | some ss =>
        if p.CurrentStatus = .StatusPaused then
          { p with StreamingSession := some { ss with PausedFlag := false },
                   CurrentStatus := .StatusPlaying }
        else p
      | none => p
    if p1.SongQueue.length > 0 ∧ p1.CurrentStatus = .StatusResting then
      match Play envs p1 0 none with
      | (.ok q, evs) => (.ok { q with CurrentStatus := .StatusPlaying }, evs)
      | r => r
    else (.ok p1, [])

/-! Concrete fixtures used to evaluate the operations at specific inputs. -/

/-- An empty thumbnail. -/
def thumbEmpty : Thumbnail := { URL := "", Width := 0, Height := 0 }

/-- An on-demand (YouTube) song. -/
def songA : Song :=
  { Title := "A", UserURL := "ua", DownloadURL := "da", Thumb := thumbEmpty,
    Duration := 0, ID := "idA", Source := .SourceYouTube }

/-- A second on-demand song. -/
def songB : Song := { songA with Title := "B", ID := "idB" }

/-- A live-stream (radio) song. -/
def songLive : Song :=
  { songA with Title := "L", ID := "idL", Source := .SourceStream }

/-- A ready voice connection none of whose external calls fail. -/
def vcOK : discordgo.VoiceConnection :=
  { GuildID := "g", Ready := true, SpeakOnErr := false, SpeakOffErr := false,
    DisconnectErr := false }

/-- A connection whose Disconnect() call returns an error. -/
def vcDiscErr : discordgo.VoiceConnection := { vcOK with DisconnectErr := true }

/-- A connection whose Speaking(true) call returns an error. -/
def vcSpeakErr : discordgo.VoiceConnection := { vcOK with SpeakOnErr := true }

/-- A player mid-playback: song A playing, song B queued, all handles
attached, no pending skip signal. -/
def pPlayingA : Player :=
  { VoiceConnection := some vcOK,
    StreamingSession := some { PlaybackPositionNs := 0, PausedFlag := false },
    EncodingSession := some { StatsDurationNs := 0, StartTime := 0 },
    SongQueue := [songB], CurrentSong := some songA,
    CurrentStatus := .StatusPlaying, SkipInterrupt := 0 }

/-- The state of `pPlayingA` immediately after the synchronous mutations of a
first Skip() call (status set to Resting, signal sent), before its nested
Play(0, nil) has run: the point at which a second immediate Skip() lands. -/
def pDouble : Player :=
  { pPlayingA with CurrentStatus := .StatusResting, SkipInterrupt := 1 }

/-- Oracle for one Play invocation whose song encodes and streams without
incident: 100s encoded, 90s streamed, no stats error, unparseable duration
parameter (the Go zero duration). -/
def envB : PlayEnv :=
  { encode := some (100 * timeSecondNs), playbackPos := 90 * timeSecondNs,
    selSkip := false, statsErr := none, durParam := none }

/-- Oracle for one Play invocation whose dca.EncodeFile call fails. -/
def envFail : PlayEnv := { envB with encode := none }

/-- The state of the spec's resume-arithmetic example at stream completion:
encode start offset 10s, streamed position 30s, encoded duration 41s, song A
playing with an empty queue. -/
def pC3 : Player :=
  { VoiceConnection := some vcOK,
    StreamingSession := some { PlaybackPositionNs := 30 * timeSecondNs,
                               PausedFlag := false },
    EncodingSession := some { StatsDurationNs := 41 * timeSecondNs,
                              StartTime := 10 },
    SongQueue := [], CurrentSong := some songA,
    CurrentStatus := .StatusPlaying, SkipInterrupt := 0 }

/-- Like `pC3` but the encode session reports zero encoded duration. -/
def pC8 : Player :=
  { pC3 with EncodingSession := some { StatsDurationNs := 0, StartTime := 10 } }

/-- A paused live stream with a song queued behind it. -/
def pLivePaused : Player :=
  { pC3 with CurrentSong := some songLive,
             CurrentStatus := .StatusPaused, SongQueue := [songB] }

/-- A playing live stream. -/
def pLivePlaying : Player := { pLivePaused with CurrentStatus := .StatusPlaying }

/-- A playing state whose connection's Disconnect() errors. -/
def pStopFatal : Player := { pPlayingA with VoiceConnection := some vcDiscErr }

/-- A playing state whose connection's Speaking(true) errors. -/
def pSpeakErr : Player := { pPlayingA with VoiceConnection := some vcSpeakErr }

/-- An idle player with a pending skip signal. -/
def pIdlePending : Player := { NewPlayer with SkipInterrupt := 1 }

/-- Engine states reachable from a fresh player by the queue operations,
Pause, Unpause and Stop alone (runs that do not exit the process). -/
inductive ReachBasic : Player → Prop where
  | init : ReachBasic NewPlayer
  | enq {p : Player} (s : Song) : ReachBasic p → ReachBasic (Enqueue p s)
  | deq {p : Player} : ReachBasic p → ReachBasic (Dequeue p).2
  | clear {p : Player} : ReachBasic p → ReachBasic (ClearQueue p)
  | pauseStep {p : Player} : ReachBasic p → ReachBasic (Pause p)
  | unpauseStep {p q : Player} (envs : List PlayEnv) (evs : List Ev) :
      ReachBasic p → Unpause envs p = (.ok q, evs) → ReachBasic q
  | stopStep {p q : Player} (evs : List Ev) :
      ReachBasic p → Stop p = (.ok q, evs) → ReachBasic q

/-- Engine states reachable from a fresh player by any sequence of the public
operations Play, Pause, Unpause, Skip, Stop, Enqueue, Dequeue and ClearQueue,
under arbitrary collaborator oracles (runs that do not exit the process). -/
inductive Reach : Player → Prop where
  | init : Reach NewPlayer
  | enq {p : Player} (s : Song) : Reach p → Reach (Enqueue p s)
  | deq {p : Player} : Reach p → Reach (Dequeue p).2
  | clear {p : Player} : Reach p → Reach (ClearQueue p)
  | pauseStep {p : Player} : Reach p → Reach (Pause p)
  | unpauseStep {p q : Player} (envs : List PlayEnv) (evs : List Ev) :
      Reach p → Unpause envs p = (.ok q, evs) → Reach q
  | stopStep {p q : Player} (evs : List Ev) :
      Reach p → Stop p = (.ok q, evs) → Reach q
  | playStep {p q : Player} (envs : List PlayEnv) (startAt : Int)
      (song : Option Song) (evs : List Ev) :
      Reach p → Play envs p startAt song = (.ok q, evs) → Reach q
  | skipStep {p q : Player} (envs : List PlayEnv) (evs : List Ev) :
      Reach p → Skip envs p = (.ok q, evs) → Reach q

/-- The disconnected-idle description of a player: no connection, Resting, no
current song, no encode or stream handle. -/
def IdleInv (p : Player) : Prop :=
  p.VoiceConnection = none ∧ p.CurrentStatus = .StatusResting ∧
  p.CurrentSong = none ∧ p.EncodingSession = none ∧ p.StreamingSession = none

/-! Helper lemmas shared by the claim theorems. -/

/-- ClearQueue empties the queue and leaves every other field unchanged. -/
theorem clearQueue_fields (p : Player) :
    (ClearQueue p).VoiceConnection = p.VoiceConnection
    ∧ (ClearQueue p).StreamingSession = p.StreamingSession
    ∧ (ClearQueue p).EncodingSession = p.EncodingSession
    ∧ (ClearQueue p).CurrentSong = p.CurrentSong
    ∧ (ClearQueue p).CurrentStatus = p.CurrentStatus
    ∧ (ClearQueue p).SkipInterrupt = p.SkipInterrupt
    ∧ (ClearQueue p).SongQueue = [] := by
  unfold ClearQueue
  split_ifs with h <;> simp_all [List.isEmpty_iff]

/-! Claim theorems. -/

/-- C9: the queue is FIFO: after Enqueue(a), Enqueue(b), Enqueue(c) on an
empty queue, successive Dequeue() calls return a, b, c in that order and then
none; Enqueue appends at the tail preserving the order of all previously
queued songs, and Dequeue on an empty queue returns none and leaves the queue
empty. -/
theorem C9_queue_fifo :
    (∀ (p : Player) (a b c : Song),
      let q1 := Enqueue (Enqueue (Enqueue { p with SongQueue := ([] : List Song) } a) b) c
      let d1 := Dequeue q1
      let d2 := Dequeue d1.2
      let d3 := Dequeue d2.2
      let d4 := Dequeue d3.2
      d1.1 = some a ∧ d2.1 = some b ∧ d3.1 = some c ∧ d4.1 = none ∧
        d4.2.SongQueue = [])
    ∧ (∀ (q : Player) (s : Song), (Enqueue q s).SongQueue = q.SongQueue ++ [s])
    ∧ (∀ (q : Player),
        Dequeue { q with SongQueue := ([] : List Song) }
          = (none, { q with SongQueue := ([] : List Song) })) := by
  refine ⟨?_, ?_, ?_⟩
  · intro p a b c
    simp [Enqueue, Dequeue]
  · intro q s
    rfl
  · intro q
    rfl

/-- C10: ClearQueue modifies only the song queue: the current song, status,
voice connection, skip signal and encode/stream sessions are exactly as
before, and on an already-empty queue it is the identity, so clearing the
queue never touches the playing track. -/
theorem C10_clearqueue_frame :
    ∀ (p : Player),
      (ClearQueue p).SongQueue = []
      ∧ (ClearQueue p).CurrentSong = p.CurrentSong
      ∧ (ClearQueue p).CurrentStatus = p.CurrentStatus
      ∧ (ClearQueue p).VoiceConnection = p.VoiceConnection
      ∧ (ClearQueue p).SkipInterrupt = p.SkipInterrupt
      ∧ (ClearQueue p).EncodingSession = p.EncodingSession
      ∧ (ClearQueue p).StreamingSession = p.StreamingSession
      ∧ ClearQueue { p with SongQueue := ([] : List Song) }
          = { p with SongQueue := ([] : List Song) } := by
  intro p
  obtain ⟨h1, h2, h3, h4, h5, h6, h7⟩ := clearQueue_fields p
  refine ⟨h7, h4, h5, h1, h6, h3, h2, ?_⟩
  unfold ClearQueue
  simp

/-- C3: at stream completion with encodeStartOffset 10s, streamed position
30s and encoded duration 41s, metrics computes songPosition = 10+30+(41-30) =
51s as the claim states; but with the nominal duration 180s parsed from the
download URL it computes songDuration = 180s scaled once more by time.Second,
which overflows int64 to a negative value, so the comparison 51 < 180 never
happens and no resume is triggered: the decision is Stop (empty queue), not
Play(51, currentSong). -/
theorem C3_resume_arithmetic :
    metrics { StatsDurationNs := 41 * timeSecondNs, StartTime := 10 }
        { PlaybackPositionNs := 30 * timeSecondNs, PausedFlag := false }
        (some (180 * timeSecondNs))
      = (-4467440737095516160, 51 * timeSecondNs)
    ∧ doneDecision pC3 none (some (180 * timeSecondNs)) = .stopQueueEmpty
    ∧ ∀ offSec : Int,
        doneDecision pC3 none (some (180 * timeSecondNs)) ≠ .resume offSec := by
  refine ⟨by decide, by decide, ?_⟩
  intro offSec hc
  rw [show doneDecision pC3 none (some (180 * timeSecondNs)) = .stopQueueEmpty
      from by decide] at hc
  exact DoneDecision.noConfusion hc

/-- C2 (amended): a completion signal for a live-stream song triggers cleanup
and Play(0, currentSong) — the restartLive decision — whenever the status is
still StatusPlaying and connection, stream and current song are attached; a
completion arriving when the status is no longer Playing (for example Paused)
falls through to the ordinary end-of-song handling instead. -/
theorem C2_livestream_amended :
    ∀ (p : Player) (statsErr : Option GoErr) (durParam : Option Int)
      (vc : discordgo.VoiceConnection) (ss : dca.StreamingSession)
      (enc : dca.EncodeSession) (cur : Song),
      p.VoiceConnection = some vc → p.StreamingSession = some ss →
      p.EncodingSession = some enc → p.CurrentSong = some cur →
      cur.Source = .SourceStream → p.CurrentStatus = .StatusPlaying →
      doneDecision p statsErr durParam = .restartLive := by
  intro p statsErr durParam vc ss enc cur hvc hss henc hcur hsrc hst
  unfold doneDecision
  rw [hvc, hss, henc, hcur]
  simp [hsrc, hst]

/-- C2 (counterexample): a live-stream song whose stream completes while the
engine is Paused does not restart from offset 0; with a song queued behind it
the decision is to advance to that queued song. -/
theorem C2_livestream_counterexample :
    pLivePaused.CurrentSong = some songLive
    ∧ songLive.Source = .SourceStream
    ∧ doneDecision pLivePaused none none = .advance := by
  exact ⟨rfl, rfl, by decide⟩

/-- C2 (witness). -/
theorem C2_witness : doneDecision pLivePlaying none none = .restartLive :=
  C2_livestream_amended pLivePlaying none none vcOK
    { PlaybackPositionNs := 30 * timeSecondNs, PausedFlag := false }
    { StatsDurationNs := 41 * timeSecondNs, StartTime := 10 }
    songLive rfl rfl rfl rfl rfl rfl

/-- C1 (amended): Stop from any prior state reaches StatusResting with an
empty queue, no current song, no connection and no stream handle, provided
the transport Disconnect call does not fail; an error from releasing
"speaking" is only logged and does not prevent this. The encode-session
field, though its session is stopped and cleaned up, is left as it was; and
a Disconnect error terminates the process instead (see the counterexample). -/
theorem C1_stop_amended :
    ∀ (p : Player),
      (∀ vc, p.VoiceConnection = some vc → vc.DisconnectErr = false) →
      ∃ q evs, Stop p = (.ok q, evs)
        ∧ q.CurrentStatus = .StatusResting ∧ q.SongQueue = []
        ∧ q.CurrentSong = none ∧ q.VoiceConnection = none
        ∧ q.StreamingSession = none ∧ q.EncodingSession = p.EncodingSession := by
  intro p h
  obtain ⟨hv, hs, he, hc, hst, hsk, hq⟩ := clearQueue_fields p
  cases hvc : (ClearQueue p).VoiceConnection with
  | none =>
    have hstop :
        Stop p
          = (.ok
              { ClearQueue p with
                  StreamingSession := none, CurrentSong := none,
                  CurrentStatus := .StatusResting },
             []) := by
      simp only [Stop]
      rw [hvc]
    exact ⟨_, _, hstop, rfl, hq, rfl, hvc, rfl, he⟩
  | some vc =>
    have hd : vc.DisconnectErr = false := h vc (hv ▸ hvc)
    have hstop :
        Stop p
          = (.ok
              { ClearQueue p with
                  VoiceConnection := none, StreamingSession := none,
                  CurrentSong := none, CurrentStatus := .StatusResting },
             if vc.SpeakOffErr then [Ev.errLog] else []) := by
      simp only [Stop]
      rw [hvc]
      simp [hd]
    exact ⟨_, _, hstop, rfl, hq, rfl, rfl, rfl, he⟩

/-- C1 (counterexample): Stop on a playing state whose connection's
Disconnect call errors does not log-and-continue: it exits the process
(slog.Fatal), so the in-memory state never reaches Resting; and even a
successful Stop leaves the encode-session field attached (only stopped and
cleaned up), contradicting "no attached encode handles". -/
theorem C1_stop_counterexample :
    (Stop pStopFatal).1 = .fatal
    ∧ ∃ q, (Stop pPlayingA).1 = .ok q ∧ q.CurrentStatus = .StatusResting
        ∧ q.EncodingSession ≠ none := by
  refine ⟨rfl, ⟨_, rfl, rfl, ?_⟩⟩
  decide

/-- C1 (witness). -/
theorem C1_witness :
    ∃ q evs, Stop pPlayingA = (.ok q, evs)
      ∧ q.CurrentStatus = .StatusResting ∧ q.SongQueue = []
      ∧ q.CurrentSong = none ∧ q.VoiceConnection = none
      ∧ q.StreamingSession = none
      ∧ q.EncodingSession = pPlayingA.EncodingSession :=
  C1_stop_amended pPlayingA (by
    intro vc hv
    have h2 : pPlayingA.VoiceConnection = some vcOK := rfl
    rw [h2] at hv
    rw [← Option.some.inj hv]
    rfl)

/-- C8: when a stream completes with a computed song position that is zero or
negative, or with a zero encoded duration, the engine does not trigger a
resume: the completion decision is never Play at the computed offset. -/
theorem C8_no_resume_nonpositive :
    ∀ (vc : discordgo.VoiceConnection) (ss : dca.StreamingSession)
      (enc : dca.EncodeSession) (cur : Song) (queue : List Song)
      (st : PlaybackStatus) (k : Nat) (statsErr : Option GoErr)
      (durParam : Option Int) (offSec : Int),
      enc.StatsDurationNs ≤ 0 ∨ (metrics enc ss durParam).2 ≤ 0 →
      doneDecision
        { VoiceConnection := some vc, StreamingSession := some ss,
          EncodingSession := some enc, SongQueue := queue,
          CurrentSong := some cur, CurrentStatus := st, SkipInterrupt := k }
        statsErr durParam ≠ .resume offSec := by
  intro vc ss enc cur queue st k statsErr durParam offSec h hres
  unfold doneDecision at hres
  simp only [] at hres
  split at hres
  · split at hres
    · rename_i hg
      obtain ⟨h1, h2, h3, h4⟩ := hg
      rcases h with h5 | h5
      · exact absurd h2 (not_lt.mpr h5)
      · exact absurd h3 (not_lt.mpr h5)
    · split at hres
      · exact DoneDecision.noConfusion hres
      · split at hres <;> exact DoneDecision.noConfusion hres
  · split at hres
    · exact DoneDecision.noConfusion hres
    · split at hres
      · exact DoneDecision.noConfusion hres
      · split at hres <;> exact DoneDecision.noConfusion hres

/-- C8 (witness). -/
theorem C8_witness :
    doneDecision pC8 none none ≠ .resume 51 :=
  C8_no_resume_nonpositive vcOK
    { PlaybackPositionNs := 30 * timeSecondNs, PausedFlag := false }
    { StatsDurationNs := 0, StartTime := 10 }
    songA [] .StatusPlaying 0 none none 51 (by left; decide)

/-- Every state reachable by the queue operations, Pause, Unpause and Stop
alone is disconnected-idle: these operations never attach a connection, so
Pause and Unpause return immediately and Stop only re-establishes idleness. -/
theorem reachBasic_idle : ∀ {p : Player}, ReachBasic p → IdleInv p := by
  intro p hr
  induction hr with
  | init => exact ⟨rfl, rfl, rfl, rfl, rfl⟩
  | enq s _ ih => exact ih
  | deq _ ih =>
    rename_i q _
    rcases hq : q.SongQueue with _ | ⟨a, tl⟩ <;>
      simp [IdleInv, Dequeue, hq] at ih ⊢ <;> exact ih
  | clear _ ih =>
    rename_i q _
    obtain ⟨h1, h2, h3, h4, h5, h6, h7⟩ := clearQueue_fields q
    exact ⟨h1.trans ih.1, h5.trans ih.2.1, h4.trans ih.2.2.1,
           h3.trans ih.2.2.2.1, h2.trans ih.2.2.2.2⟩
  | pauseStep _ ih =>
    rename_i q _
    have hp : Pause q = q := by
      unfold Pause
      rw [ih.1]
    rw [hp]
    exact ih
  | unpauseStep envs evs _ heq ih =>
    rename_i q r _
    have hu : Unpause envs q = (.ok q, []) := by
      unfold Unpause
      rw [ih.1]
    rw [hu] at heq
    injection heq with ha hb
    injection ha with ha
    rw [← ha]
    exact ih
  | stopStep evs _ heq ih =>
    rename_i q r _
    obtain ⟨h1, h2, h3, h4, h5, h6, h7⟩ := clearQueue_fields q
    have hstop :
        Stop q
          = (.ok
              { ClearQueue q with
                  StreamingSession := none, CurrentSong := none,
                  CurrentStatus := .StatusResting },
             []) := by
      simp only [Stop]
      rw [h1.trans ih.1]
    rw [hstop] at heq
    injection heq with ha hb
    injection ha with ha
    rw [← ha]
    exact ⟨h1.trans ih.1, rfl, rfl, h3.trans ih.2.2.2.1, rfl⟩

/-- C4 (amended): in every state reachable by Enqueue, Dequeue, ClearQueue,
Pause, Unpause and Stop from a fresh engine, status == Resting iff
currentSong == none and the encode handle is absent iff status == Resting
(all three hold simultaneously); Skip and Play break both equivalences (see
the counterexample). -/
theorem C4_state_invariant_amended :
    ∀ (p : Player), ReachBasic p →
      ((p.CurrentStatus = .StatusResting ↔ p.CurrentSong = none)
        ∧ (p.EncodingSession = none ↔ p.CurrentStatus = .StatusResting)) := by
  intro p hr
  obtain ⟨h1, h2, h3, h4, h5⟩ := reachBasic_idle hr
  exact ⟨⟨fun _ => h3, fun _ => h2⟩, ⟨fun _ => h2, fun _ => h4⟩⟩

/-- C4 (counterexample): Skip() on a fresh idle engine leaves status ==
StatusPlaying with currentSong == none and no encode handle, breaking both
equivalences; and Play(0, nil) after a single Enqueue whose encode-open
fails leaves status == StatusResting with currentSong attached. -/
theorem C4_state_invariant_counterexample :
    (∃ q, (Skip [] NewPlayer).1 = .ok q
       ∧ q.CurrentStatus = .StatusPlaying ∧ q.CurrentSong = none
       ∧ q.EncodingSession = none)
    ∧ (∃ q, (Play [envFail] (Enqueue NewPlayer songA) 0 none).1 = .ok q
       ∧ q.CurrentStatus = .StatusResting ∧ q.CurrentSong = some songA) := by
  exact ⟨⟨_, rfl, rfl, rfl, rfl⟩, ⟨_, rfl, rfl, rfl⟩⟩

/-- C4 (witness). -/
theorem C4_witness :
    (NewPlayer.CurrentStatus = .StatusResting ↔ NewPlayer.CurrentSong = none)
    ∧ (NewPlayer.EncodingSession = none
        ↔ NewPlayer.CurrentStatus = .StatusResting) :=
  C4_state_invariant_amended NewPlayer ReachBasic.init

/-- C6 (amended): when opening the encode session fails, or the connection
cannot be marked speaking, Play aborts with the error logged and never
reaches StatusPlaying: status, streaming session, connection, skip flag and
queue-after-entry are untouched. The state is however not exactly as before
the call: a nil-song invocation has already moved the queue head into
CurrentSong, and the encode-session field is overwritten — cleared on encode
failure, set to the freshly opened (immediately cleaned-up) session on
speaking failure. -/
theorem C6_play_failure_amended :
    (∀ (p : Player) (e : PlayEnv) (rest : List PlayEnv) (startAt : Int)
       (sng : Song),
      p.CurrentSong ≠ none → e.encode = none →
      Play (e :: rest) p startAt (some sng)
        = (.ok { p with EncodingSession := none }, [Ev.errLog]))
    ∧ (∀ (p : Player) (e : PlayEnv) (rest : List PlayEnv) (startAt : Int)
         (a : Song) (tl : List Song),
        p.SongQueue = a :: tl → e.encode = none →
        Play (e :: rest) p startAt none
          = (.ok { p with
                     SongQueue := tl, CurrentSong := some a,
                     EncodingSession := none }, [Ev.errLog]))
    ∧ (∀ (p : Player) (e : PlayEnv) (rest : List PlayEnv) (startAt : Int)
         (sng : Song) (d : Int) (vc : discordgo.VoiceConnection),
        p.CurrentSong ≠ none → e.encode = some d →
        p.VoiceConnection = some vc → vc.Ready = true → vc.SpeakOnErr = true →
        Play (e :: rest) p startAt (some sng)
          = (.ok { p with
                     EncodingSession :=
                       some { StatsDurationNs := d, StartTime := startAt } },
             [Ev.errLog]))
    ∧ (∀ (p : Player) (e : PlayEnv) (rest : List PlayEnv) (startAt : Int)
         (a : Song) (tl : List Song) (d : Int) (vc : discordgo.VoiceConnection),
        p.SongQueue = a :: tl → e.encode = some d →
        p.VoiceConnection = some vc → vc.Ready = true → vc.SpeakOnErr = true →
        Play (e :: rest) p startAt none
          = (.ok { p with
                     SongQueue := tl, CurrentSong := some a,
                     EncodingSession :=
                       some { StatsDurationNs := d, StartTime := startAt } },
             [Ev.errLog])) := by
  refine ⟨?_, ?_, ?_, ?_⟩
  · intro p e rest startAt sng hcs he
    obtain ⟨enc, pos, sel, serr, dparam⟩ := e
    dsimp only at he
    subst he
    obtain ⟨vc, ss, es, sq, cs, st, si⟩ := p
    dsimp only at hcs
    rcases cs with _ | c
    · exact absurd rfl hcs
    · rfl
  · intro p e rest startAt a tl hq he
    obtain ⟨enc, pos, sel, serr, dparam⟩ := e
    dsimp only at he
    subst he
    obtain ⟨vc, ss, es, sq, cs, st, si⟩ := p
    dsimp only at hq
    subst hq
    rfl
  · intro p e rest startAt sng d vc hcs he hvc hrd hsp
    obtain ⟨enc, pos, sel, serr, dparam⟩ := e
    dsimp only at he
    subst he
    obtain ⟨pvc, ss, es, sq, cs, st, si⟩ := p
    dsimp only at hcs hvc
    subst hvc
    obtain ⟨gid, rdy, son, soff, derr⟩ := vc
    dsimp only at hrd hsp
    subst hrd
    subst hsp
    rcases cs with _ | c
    · exact absurd rfl hcs
    · rfl
  · intro p e rest startAt a tl d vc hq he hvc hrd hsp
    obtain ⟨enc, pos, sel, serr, dparam⟩ := e
    dsimp only at he
    subst he
    obtain ⟨pvc, ss, es, sq, cs, st, si⟩ := p
    dsimp only at hq hvc
    subst hq
    subst hvc
    obtain ⟨gid, rdy, son, soff, derr⟩ := vc
    dsimp only at hrd hsp
    subst hrd
    subst hsp
    rfl

/-- C6 (counterexample): after Enqueue(songA) on a fresh engine, Play(0, nil)
with a failing encode-open does not leave the state unchanged: the song has
been dequeued into CurrentSong and the queue is empty, whereas before the
call CurrentSong was none and the queue held songA. -/
theorem C6_play_failure_counterexample :
    ∃ q, Play [envFail] (Enqueue NewPlayer songA) 0 none
        = (.ok q, [Ev.errLog])
      ∧ q.CurrentSong = some songA ∧ q.SongQueue = []
      ∧ (Enqueue NewPlayer songA).CurrentSong = none
      ∧ (Enqueue NewPlayer songA).SongQueue = [songA] := by
  exact ⟨_, rfl, rfl, rfl, rfl, rfl⟩

/-- C6 (witness). -/
theorem C6_witness :
    Play [envFail] pPlayingA 0 (some songA)
      = (.ok { pPlayingA with EncodingSession := none }, [Ev.errLog]) :=
  C6_play_failure_amended.1 pPlayingA envFail [] 0 songA
    (by simp [pPlayingA]) rfl

/-- C7 (amended): Skip() on an idle engine (Resting, no current song, empty
queue) records no play-count stat and leaves queue, current song and handles
unchanged, but it is not a no-op: with no pending signal it sends the skip
signal, the nested Play(0, nil) returns at once on the empty queue, and the
final assignment leaves status == StatusPlaying; only when a skip signal is
already pending does Skip() change nothing at all. -/
theorem C7_skip_idle_amended :
    ∀ (p : Player) (envs : List PlayEnv),
      p.CurrentStatus = .StatusResting → p.CurrentSong = none →
      p.SongQueue = [] →
      (p.SkipInterrupt = 0 →
        Skip envs p
          = (.ok { p with
                     SkipInterrupt := 1,
                     CurrentStatus := .StatusPlaying },
             [Ev.sendSkip]))
      ∧ (p.SkipInterrupt = 1 → Skip envs p = (.ok p, [])) := by
  intro p envs h1 h2 h3
  obtain ⟨vc, ss, es, sq, cs, st, si⟩ := p
  dsimp only at h1 h2 h3
  subst h1
  subst h2
  subst h3
  constructor
  · intro h4
    dsimp only at h4
    subst h4
    rcases envs with _ | ⟨e, rest⟩ <;> rfl
  · intro h4
    dsimp only at h4
    subst h4
    rcases envs with _ | ⟨e, rest⟩ <;> rfl

/-- C7 (counterexample): Skip() on a fresh idle engine is not a no-op: it
sets the pending skip signal and leaves the status at StatusPlaying. -/
theorem C7_skip_idle_counterexample :
    Skip [] NewPlayer
      = (.ok { NewPlayer with
                 SkipInterrupt := 1,
                 CurrentStatus := .StatusPlaying },
         [Ev.sendSkip])
    ∧ (Skip [] NewPlayer).1 ≠ .ok NewPlayer := by
  exact ⟨rfl, by decide⟩

/-- C7 (witness). -/
theorem C7_witness : Skip [] pIdlePending = (.ok pIdlePending, []) :=
  (C7_skip_idle_amended pIdlePending [] rfl rfl rfl).2 rfl



/-- A pair whose first component is a given Outcome equals the pair of that
Outcome and its own second component. -/
theorem pair_fst_ok {r : Outcome × List Ev} {q : Player} (h : r.1 = .ok q) :
    r = (.ok q, r.2) := Prod.ext h rfl

/-- Stop never changes the skip-channel occupancy. -/
theorem stop_skipInterrupt :
    ∀ (p q : Player) (evs : List Ev),
      Stop p = (.ok q, evs) → q.SkipInterrupt = p.SkipInterrupt := by
  intro p q evs h
  obtain ⟨h1, h2, h3, h4, h5, h6, h7⟩ := clearQueue_fields p
  simp only [Stop] at h
  split at h
  · split at h
    · simp at h
    · injection h with ha hb
      injection ha with ha
      rw [← ha]
      exact h6
  · injection h with ha hb
    injection ha with ha
    rw [← ha]
    exact h6

/-- Play never sends on the skip channel: across a whole Play invocation,
including all its resumes, restarts and queue advances, the skip-channel
occupancy can only stay or shrink (the select may consume one signal). -/
theorem play_skipInterrupt_le :
    ∀ (envs : List PlayEnv) (p : Player) (startAt : Int) (song : Option Song)
      (q : Player) (evs : List Ev),
      Play envs p startAt song = (.ok q, evs) →
      q.SkipInterrupt ≤ p.SkipInterrupt := by
  intro envs
  induction envs with
  | nil =>
    intro p startAt song q evs h
    rw [Play.eq_def] at h
    rcases song with _ | sng
    · rcases hsq : p.SongQueue with _ | ⟨a, tl⟩ <;> simp [Dequeue, hsq] at h
      obtain ⟨h1, h2⟩ := h
      subst h1
      exact le_refl _
    · rcases hcs : p.CurrentSong with _ | cur <;> simp [hcs] at h
  | cons e rest ih =>
    intro p startAt song q evs h
    rw [Play.eq_def] at h
    rcases song with _ | sng
    · rcases hsq : p.SongQueue with _ | ⟨a, tl⟩ <;> simp [Dequeue, hsq] at h
      · obtain ⟨h1, h2⟩ := h
        subst h1
        exact le_refl _
      · rcases he : e.encode with _ | d <;> simp [he] at h
        · obtain ⟨h1, h2⟩ := h
          subst h1
          exact le_refl _
        · rcases hvc : p.VoiceConnection with _ | vc <;> simp [hvc] at h
          cases hrd : vc.Ready <;> simp [hrd] at h
          cases hsp : vc.SpeakOnErr <;> simp [hsp] at h
          · split at h
            · simp at h
              obtain ⟨h1, h2⟩ := h
              subst h1
              exact Nat.sub_le _ _
            · split at h
              · simp at h
                obtain ⟨h1, h2⟩ := h
                have hle := ih _ _ _ _ _ (pair_fst_ok h1)
                exact hle
              · simp at h
                obtain ⟨h1, h2⟩ := h
                have hle := ih _ _ _ _ _ (pair_fst_ok h1)
                exact hle
              · simp at h
                obtain ⟨h1, h2⟩ := h
                subst h1
                exact le_refl _
              · simp at h
                obtain ⟨h1, h2⟩ := h
                have hst := stop_skipInterrupt _ _ _ (pair_fst_ok h1)
                exact le_of_eq hst
              · simp at h
                obtain ⟨h1, h2⟩ := h
                have hle := ih _ _ _ _ _ (pair_fst_ok h1)
                exact hle
          · obtain ⟨h1, h2⟩ := h
            subst h1
            exact le_refl _
    · rcases hcs : p.CurrentSong with _ | cur <;> simp [hcs] at h
      rcases he : e.encode with _ | d <;> simp [he] at h
      · obtain ⟨h1, h2⟩ := h
        subst h1
        exact le_refl _
      · rcases hvc : p.VoiceConnection with _ | vc <;> simp [hvc] at h
        cases hrd : vc.Ready <;> simp [hrd] at h
        cases hsp : vc.SpeakOnErr <;> simp [hsp] at h
        · split at h
          · simp at h
            obtain ⟨h1, h2⟩ := h
            subst h1
            exact Nat.sub_le _ _
          · split at h
            · simp at h
              obtain ⟨h1, h2⟩ := h
              have hle := ih _ _ _ _ _ (pair_fst_ok h1)
              exact hle
            · simp at h
              obtain ⟨h1, h2⟩ := h
              have hle := ih _ _ _ _ _ (pair_fst_ok h1)
              exact hle
            · simp at h
              obtain ⟨h1, h2⟩ := h
              subst h1
              exact le_refl _
            · simp at h
              obtain ⟨h1, h2⟩ := h
              have hst := stop_skipInterrupt _ _ _ (pair_fst_ok h1)
              exact le_of_eq hst
            · simp at h
              obtain ⟨h1, h2⟩ := h
              have hle := ih _ _ _ _ _ (pair_fst_ok h1)
              exact hle
        · obtain ⟨h1, h2⟩ := h
          subst h1
          exact le_refl _




/-- Pause never changes the skip-channel occupancy. -/
theorem pause_skipInterrupt (p : Player) :
    (Pause p).SkipInterrupt = p.SkipInterrupt := by
  rcases hvc : p.VoiceConnection with _ | vc <;>
    rcases hss : p.StreamingSession with _ | ss <;>
    simp [Pause, hvc, hss]
  split <;> rfl

/-- Unpause never grows the skip-channel occupancy (it can shrink it through
the nested Play). -/
theorem unpause_skipInterrupt_le :
    ∀ (envs : List PlayEnv) (p q : Player) (evs : List Ev),
      Unpause envs p = (.ok q, evs) → q.SkipInterrupt ≤ p.SkipInterrupt := by
  intro envs p q evs h
  unfold Unpause at h
  rcases hvc : p.VoiceConnection with _ | vc <;> simp [hvc] at h
  · obtain ⟨h1, h2⟩ := h
    subst h1
    exact le_refl _
  · rcases hss : p.StreamingSession with _ | ss <;> simp [hss] at h
    · split at h
      · split at h
        · rename_i q' evs' heq
          simp at h
          obtain ⟨h1, h2⟩ := h
          subst h1
          have hle := play_skipInterrupt_le _ _ _ _ _ _ heq
          exact hle
        · rename_i r hno
          exact absurd h (hno _ _)
      · simp at h
        obtain ⟨h1, h2⟩ := h
        subst h1
        exact le_refl _
    · by_cases hpa : p.CurrentStatus = .StatusPaused <;> simp [hpa] at h
      · obtain ⟨h1, h2⟩ := h
        subst h1
        exact le_refl _
      · split at h
        · split at h
          · rename_i q' evs' heq
            simp at h
            obtain ⟨h1, h2⟩ := h
            subst h1
            have hle := play_skipInterrupt_le _ _ _ _ _ _ heq
            exact hle
          · rename_i r hno
            exact absurd h (hno _ _)
        · simp at h
          obtain ⟨h1, h2⟩ := h
          subst h1
          exact le_refl _

/-- Skip keeps the skip-channel occupancy at most one: every send is guarded
by an emptiness check of the capacity-1 channel. -/
theorem skip_skipInterrupt_le_one :
    ∀ (envs : List PlayEnv) (p q : Player) (evs : List Ev),
      p.SkipInterrupt ≤ 1 → Skip envs p = (.ok q, evs) →
      q.SkipInterrupt ≤ 1 := by
  intro envs p q evs hle h
  unfold Skip at h
  rcases hst : p.CurrentStatus <;> simp [hst] at h
  · -- StatusResting
    rcases hcs : p.CurrentSong with _ | cur <;> simp [hcs] at h
    · by_cases hsk : p.SkipInterrupt = 0 <;> simp [hsk] at h
      · split at h
        · rename_i q' evs' heq
          simp at h
          obtain ⟨h1, h2⟩ := h
          subst h1
          have hp := play_skipInterrupt_le _ _ _ _ _ _ heq
          exact le_trans hp (by norm_num)
        · rename_i sc o l hno heq2
          simp at h
          exact absurd h.1 (hno q)
      · obtain ⟨h1, h2⟩ := h
        subst h1
        exact hle
    · by_cases hsk : p.SkipInterrupt = 0 <;> simp [hsk] at h
      · rcases hvc : p.VoiceConnection with _ | vc <;> simp [hvc] at h
        split at h
        · rename_i q' evs' heq
          simp at h
          obtain ⟨h1, h2⟩ := h
          subst h1
          have hp := play_skipInterrupt_le _ _ _ _ _ _ heq
          exact le_trans hp (by norm_num)
        · rename_i sc o l hno heq2
          simp at h
          exact absurd h.1 (hno q)
      · obtain ⟨h1, h2⟩ := h
        subst h1
        exact hle
  · -- StatusPlaying
    rcases hvc : p.VoiceConnection with _ | vc <;>
      rcases hcs : p.CurrentSong with _ | cur <;> simp [hvc, hcs] at h
    · obtain ⟨h1, h2⟩ := h
      subst h1
      exact hle
    · obtain ⟨h1, h2⟩ := h
      subst h1
      exact hle
    · obtain ⟨h1, h2⟩ := h
      subst h1
      exact hle
    · by_cases hsk : p.SkipInterrupt = 0 <;> simp [hsk] at h
      · obtain ⟨h1, h2⟩ := h
        have hp := play_skipInterrupt_le _ _ _ _ _ _ (pair_fst_ok h1)
        exact le_trans hp (by norm_num)
      · obtain ⟨h1, h2⟩ := h
        subst h1
        exact hle
  · -- StatusPaused
    rcases hvc : p.VoiceConnection with _ | vc <;>
      rcases hcs : p.CurrentSong with _ | cur <;> simp [hvc, hcs] at h
    · obtain ⟨h1, h2⟩ := h
      subst h1
      exact hle
    · obtain ⟨h1, h2⟩ := h
      subst h1
      exact hle
    · obtain ⟨h1, h2⟩ := h
      subst h1
      exact hle
    · by_cases hsk : p.SkipInterrupt = 0 <;> simp [hsk] at h
      · obtain ⟨h1, h2⟩ := h
        have hp := play_skipInterrupt_le _ _ _ _ _ _ (pair_fst_ok h1)
        exact le_trans hp (by norm_num)
      · obtain ⟨h1, h2⟩ := h
        subst h1
        exact hle
  · -- StatusError
    obtain ⟨h1, h2⟩ := h
    subst h1
    exact hle

/-- In every reachable state the skip channel holds at most one signal. -/
theorem reach_skipInterrupt_le_one :
    ∀ {p : Player}, Reach p → p.SkipInterrupt ≤ 1 := by
  intro p hr
  induction hr with
  | init => decide
  | enq s _ ih => exact ih
  | deq _ ih =>
    rename_i r _
    rcases hq : r.SongQueue with _ | ⟨a, tl⟩ <;> simp [Dequeue, hq] <;> exact ih
  | clear _ ih =>
    rename_i r _
    rw [(clearQueue_fields r).2.2.2.2.2.1]
    exact ih
  | pauseStep _ ih =>
    rename_i r _
    rw [pause_skipInterrupt r]
    exact ih
  | unpauseStep envs evs _ heq ih =>
    exact le_trans (unpause_skipInterrupt_le _ _ _ _ heq) ih
  | stopStep evs _ heq ih =>
    exact le_trans (le_of_eq (stop_skipInterrupt _ _ _ heq)) ih
  | playStep envs startAt song evs _ heq ih =>
    exact le_trans (play_skipInterrupt_le _ _ _ _ _ _ heq) ih
  | skipStep envs evs _ heq ih =>
    exact skip_skipInterrupt_le_one _ _ _ _ ih heq



/-- C5: the skip signal is a single-slot flag. In every state reachable by
the public operations at most one skip signal is pending; a Skip() arriving
while a signal is pending sends nothing and changes nothing; a first Skip()
on a playing engine performs exactly one play-count stat, one signal send,
and one Play(0, nil) invocation on the signalled state; and in the concrete
double-skip scenario (song A playing, song B queued) the event trace carries
exactly one track-start for B — one advance — and one signal send, while a
second immediate Skip() on the intermediate state is a no-op. -/
theorem C5_skip_single_slot :
    (∀ (p : Player), Reach p → p.SkipInterrupt ≤ 1)
    ∧ (∀ (p : Player) (envs : List PlayEnv) (vc : discordgo.VoiceConnection)
         (cur : Song),
        p.CurrentStatus = .StatusPlaying → p.VoiceConnection = some vc →
        p.CurrentSong = some cur → p.SkipInterrupt = 0 →
        Skip envs p
          = ((Play envs { p with
                            CurrentStatus := .StatusResting,
                            SkipInterrupt := 1 } 0 none).1,
             Ev.playCount vc.GuildID cur.ID :: Ev.sendSkip
               :: (Play envs { p with
                                 CurrentStatus := .StatusResting,
                                 SkipInterrupt := 1 } 0 none).2))
    ∧ (∀ (p : Player) (envs : List PlayEnv),
        p.CurrentStatus = .StatusResting → p.CurrentSong ≠ none →
        p.SkipInterrupt = 1 → Skip envs p = (.ok p, []))
    ∧ (Skip [envB] pPlayingA).2.count (Ev.trackStart "g" "idB") = 1
    ∧ (Skip [envB] pPlayingA).2.count Ev.sendSkip = 1
    ∧ Skip [] pDouble = (.ok pDouble, []) := by
  refine ⟨fun p hr => reach_skipInterrupt_le_one hr, ?_, ?_, ?_, ?_, ?_⟩
  · intro p envs vc cur h1 h2 h3 h4
    obtain ⟨pvc, ss, es, sq, cs, st, si⟩ := p
    dsimp only at h1 h2 h3 h4
    subst h1
    subst h2
    subst h3
    subst h4
    rfl
  · intro p envs h1 h2 h3
    obtain ⟨pvc, ss, es, sq, cs, st, si⟩ := p
    dsimp only at h1 h2 h3
    subst h1
    subst h3
    rcases cs with _ | c
    · exact absurd rfl h2
    · rfl
  · rfl
  · rfl
  · rfl

/-- C5 (witness). -/
theorem C5_witness : NewPlayer.SkipInterrupt ≤ 1 :=
  C5_skip_single_slot.1 NewPlayer Reach.init

end Melodix
